import Mathlib

/-!
Verification of the plain-text I/O helpers of frootlab/flib
(`src/hup/io/plain.py` and the `Connector` base class of `src/hup/io/abc.py`).

Strings are embedded as lists of characters (`Line`).  Python's
whitespace-stripping primitives (`str.lstrip`, `str.rstrip`, `str.strip`,
`str.rstrip('\r\n')`) are reproduced over that representation, restricted to
the ASCII whitespace characters Python recognises.  Files are embedded as the
list of lines that Python's line iteration over a text handle yields (each
line keeps its terminator, as in Python).

The control flow of `openx` is embedded as a function of the outcome of the
connector's `open` and of the scoped body, returning both the overall outcome
and the number of `close()` calls performed.
-/

namespace Flib

/-- A Python string, as a list of characters. -/
abbrev Line := List Char

/-- Whitespace as recognised by Python's argument-less `str.strip` family,
restricted to the ASCII range: space, tab, linefeed, carriage return,
vertical tab, form feed and the four ASCII separator control characters. -/
def pyIsSpace (c : Char) : Bool :=
  c = ' ' || c = '\t' || c = '\n' || c = '\r' || c = '\x0b' || c = '\x0c' ||
  c = '\x1c' || c = '\x1d' || c = '\x1e' || c = '\x1f'

/-- Python `s.lstrip()`: drop leading whitespace. -/
def pyLstrip (s : Line) : Line := s.dropWhile pyIsSpace

/-- Python `s.rstrip()`: drop trailing whitespace. -/
def pyRstrip (s : Line) : Line := (s.reverse.dropWhile pyIsSpace).reverse

/-- Python `s.strip()`: drop leading and trailing whitespace. -/
def pyStrip (s : Line) : Line := pyRstrip (pyLstrip s)

/-- Python `s.rstrip('\r\n')`: drop trailing carriage returns and linefeeds. -/
def pyRstripCRLF (s : Line) : Line :=
  (s.reverse.dropWhile (fun c => c = '\r' || c = '\n')).reverse

/-- Python `s.startswith('#')` for our character-list strings. -/
def startsWithHash : Line → Bool
  | [] => false
  | c :: _ => c = '#'

/-!
### `get_comment` (src/hup/io/plain.py, lines 119-142)

```python
lines = []
with openx(file, mode='r') as fh:
    for line in fh:
        lstrip = line.lstrip()
        if not lstrip.rstrip():
            continue
        if not lstrip.startswith('#'):
            break
        lines.append(lstrip[1:].lstrip())
return ''.join(lines).rstrip()
```
-/

/-- The loop body of `get_comment`: the list of strings accumulated in
`lines` before the `return`.  Blank lines are skipped, the first left-stripped
line not starting with `#` breaks the loop, and every comment line contributes
`lstrip[1:].lstrip()`. -/
def get_comment_scan : List Line → List Line
  | [] => []
  | line :: rest =>
    let ls := pyLstrip line
    if (pyRstrip ls).isEmpty then get_comment_scan rest
    else if startsWithHash ls = false then []
    else pyLstrip (ls.drop 1) :: get_comment_scan rest

/-- `get_comment`, over the file's lines: `''.join(lines).rstrip()`. -/
def get_comment (file : List Line) : Line :=
  pyRstrip (get_comment_scan file).flatten

/-!
### `get_content` (src/hup/io/plain.py, lines 144-169)

```python
content = []
with openx(file, mode='r') as fh:
    for line in fh:
        if lines and len(content) >= lines:
            break
        strip = line.strip()
        if not strip or strip.startswith('#'):
            continue
        content.append(line.rstrip('\r\n'))
return content
```
(the `lines` parameter is called `limit` here; `0` is the default).
-/

/-- The loop of `get_content`, with the accumulator `content` kept in reverse
order (list cons in place of Python's `append`). -/
def get_content_aux (limit : Nat) : List Line → List Line → List Line
  | [], acc => acc.reverse
  | line :: rest, acc =>
    if limit ≠ 0 ∧ limit ≤ acc.length then acc.reverse
    else
      let strip := pyStrip line
      if strip.isEmpty || startsWithHash strip then get_content_aux limit rest acc
      else get_content_aux limit rest (pyRstripCRLF line :: acc)

/-- `get_content`, over the file's lines. -/
def get_content (file : List Line) (limit : Nat) : List Line :=
  get_content_aux limit file []

/-!
### `openx` (src/hup/io/plain.py, lines 43-85)

```python
cman = FileConnector(file)
if 't' not in mode:
    mode += 't'
fh = cman.open(mode=mode)
if not isinstance(fh, io.TextIOBase):
    cman.close()
    raise ValueError('the opened stream is not a valid text file')
try:
    yield fh
finally:
    cman.close()
```
-/

/-- Errors are embedded as plain messages. -/
abbrev Err := String

/-- The message of the `ValueError` raised by `openx`'s validation. -/
def valueErrorMsg : Err := "the opened stream is not a valid text file"

/-- The handle returned by the connector's `open`: its text content and
whether it is a text-mode stream (`isinstance(fh, io.TextIOBase)`). -/
structure Handle where
  content : String
  isText : Bool
deriving DecidableEq, Repr

/-- The mode-normalisation step of `openx`:
`if 't' not in mode: mode += 't'`. -/
def forceTextMode (mode : Line) : Line :=
  if 't' ∈ mode then mode else mode ++ ['t']

/-- The control flow of `openx`, parameterised by the connector's `open`
(a function of the mode actually passed to it, which may fail) and by the
scoped body (which receives the handle and may fail).  The body threads the
handle so that writes are observable.  Returns the overall outcome together
with the number of `close()` calls performed on the connector. -/
def openx (A : Type) (mode : Line) (openF : Line → Except Err Handle)
    (body : Handle → Except Err (A × Handle)) : Except Err (A × Handle) × Nat :=
  match openF (forceTextMode mode) with
  | .error e => (.error e, 0)
  | .ok fh =>
    if fh.isText = false then (.error valueErrorMsg, 1)
    else
      match body fh with
      | .ok afh => (.ok afh, 1)
      | .error e => (.error e, 1)

/-!
### `load` and `save` (src/hup/io/plain.py, lines 87-117)

```python
def load(file):
    with openx(file, mode='r') as fh:
        return fh.read()

def save(text, file):
    with openx(file, mode='w') as fh:
        fh.write(text)
```

`FileConnector` and the stream it opens live outside `src/`; their behaviour
on a path reference is modelled from the spec (sections 4.1-4.4).
-/

/-- A filesystem: stored text content per path. -/
def FS := String → String

/-- The body of `load`: `fh.read()` returns the entire content. -/
def readAll (fh : Handle) : Except Err (String × Handle) :=
  .ok (fh.content, fh)

/-- The body of `save`: `fh.write(text)` appends `text` verbatim at the
stream position (the start, for a freshly truncated write handle). -/
def writeText (text : String) (fh : Handle) : Except Err (Unit × Handle) :=
  .ok ((), { fh with content := fh.content ++ text })

/-- Modelled from the spec: `FileConnector` is not under `src/`.  Opening a
path reference in read mode resolves the path and returns a text-mode stream
holding the file's stored text (spec 4.1: `open(mode) -> Stream` positioned
at the start; 4.3: `load` reads the entire content). -/
def openPathRead (fs : FS) (p : String) : Line → Except Err Handle :=
  fun _ => .ok { content := fs p, isText := true }

/-- Modelled from the spec: `FileConnector` is not under `src/`.  Opening a
path reference in write mode truncates and returns an empty text-mode stream
(spec 4.4: `save` writes `text` verbatim, nothing else is kept). -/
def openPathWrite : Line → Except Err Handle :=
  fun _ => .ok { content := "", isText := true }

/-- `load` on a path reference: `openx(file, mode='r')`, then `fh.read()`. -/
def load (fs : FS) (p : String) : Except Err String :=
  match (openx String ['r'] (openPathRead fs p) readAll).1 with
  | .ok (s, _) => .ok s
  | .error e => .error e

/-- `save` on a path reference: `openx(file, mode='w')`, then
`fh.write(text)`; on success the handle's final content is what the path now
stores (modelled from the spec: closing the write stream persists it). -/
def save (text : String) (fs : FS) (p : String) : FS :=
  match (openx Unit ['w'] openPathWrite (writeText text)).1 with
  | .ok (_, fh) => fun q => if q = p then fh.content else fs q
  | .error _ => fs

/-!
### The `Connector` base class (src/hup/io/abc.py, lines 34-48)

```python
class Connector(abc.ABC):
    @property
    @abc.abstractmethod
    def name(self): ...
    @abc.abstractmethod
    def open(self, *args, **kwds): ...
```
-/

/-- The abstract members declared by the `Connector` base class: the
property `name` and the method `open` — exactly the members marked
`@abc.abstractmethod` in `src/hup/io/abc.py`. -/
def connectorAbstractMembers : List String := ["name", "open"]

/-!
## Helper lemmas
-/

/-- A line is kept by `get_content` iff its fully stripped form is neither
empty nor starts with `#`. -/
def keepLine (l : Line) : Bool :=
  !((pyStrip l).isEmpty || startsWithHash (pyStrip l))

lemma get_content_aux_zero (file : List Line) :
    ∀ acc : List Line,
      get_content_aux 0 file acc = acc.reverse ++ get_content_aux 0 file [] := by
  induction file with
  | nil => intro acc; simp [get_content_aux]
  | cons l rest ih =>
    intro acc
    simp only [get_content_aux, ne_eq, not_true_eq_false, false_and, if_false]
    by_cases hk : (pyStrip l).isEmpty || startsWithHash (pyStrip l)
    · simp only [hk, if_true, ih acc]
    · simp only [hk, if_false, ih (pyRstripCRLF l :: acc), ih [pyRstripCRLF l]]
      simp

lemma get_content_zero_eq_filter (file : List Line) :
    get_content file 0 = (file.filter keepLine).map pyRstripCRLF := by
  unfold get_content
  induction file with
  | nil => simp [get_content_aux]
  | cons l rest ih =>
    simp only [get_content_aux, ne_eq, not_true_eq_false, false_and, if_false]
    by_cases hk : (pyStrip l).isEmpty || startsWithHash (pyStrip l)
    · have hkeep : keepLine l = false := by simp [keepLine, hk]
      simp only [hk, if_true, List.filter_cons, hkeep]
      simpa using ih
    · have hkeep : keepLine l = true := by simp [keepLine]; simpa using hk
      simp only [hk, if_false, List.filter_cons, hkeep, if_true, List.map_cons]
      rw [get_content_aux_zero rest [pyRstripCRLF l]]
      simpa using ih

lemma get_content_aux_take (n : Nat) (hn : 0 < n) (file : List Line) :
    ∀ acc : List Line, acc.length ≤ n →
      get_content_aux n file acc = (get_content_aux 0 file acc).take n := by
  induction file with
  | nil =>
    intro acc hacc
    simp only [get_content_aux]
    exact (List.take_of_length_le (by simpa using hacc)).symm
  | cons l rest ih =>
    intro acc hacc
    by_cases hbreak : n ≤ acc.length
    · have hlen : acc.reverse.length = n := by
        simp [le_antisymm hacc hbreak]
      have hcond : (n ≠ 0 ∧ n ≤ acc.length) := ⟨Nat.pos_iff_ne_zero.mp hn, hbreak⟩
      rw [get_content_aux_zero (l :: rest) acc]
      simp only [get_content_aux, if_pos hcond]
      exact (List.take_left' hlen).symm
    · have hlt : acc.length < n := lt_of_not_ge hbreak
      have hcond : ¬ (n ≠ 0 ∧ n ≤ acc.length) := fun h => hbreak h.2
      simp only [get_content_aux, if_neg hcond, ne_eq, not_true_eq_false,
        false_and, if_false]
      by_cases hk : (pyStrip l).isEmpty || startsWithHash (pyStrip l)
      · simp only [hk, if_true]
        exact ih acc hacc
      · simp only [hk, if_false]
        exact ih (pyRstripCRLF l :: acc) (by simpa using hlt)

lemma get_content_eq_take (file : List Line) (n : Nat) (hn : 0 < n) :
    get_content file n = (get_content file 0).take n :=
  get_content_aux_take n hn file [] (by simp)

/-- What a line of the leading block contributes to `get_comment`'s
accumulator: nothing when the line is blank, otherwise the line after
left-stripping, dropping the `#` and left-stripping again. -/
def commentContribution (l : Line) : Option Line :=
  if (pyStrip l).isEmpty then none else some (pyLstrip ((pyLstrip l).drop 1))

lemma dropWhile_append_of_all {p : Char → Bool} :
    ∀ l₁ l₂ : Line, l₁.all p = true →
      (l₁ ++ l₂).dropWhile p = l₂.dropWhile p := by
  intro l₁ l₂ h
  induction l₁ with
  | nil => rfl
  | cons c t ih =>
    simp only [List.all_cons, Bool.and_eq_true] at h
    simp only [List.cons_append, List.dropWhile_cons, h.1, if_true]
    exact ih h.2

lemma dropWhile_eq_nil_of_all {p : Char → Bool} (l : Line) (h : l.all p = true) :
    l.dropWhile p = [] := by
  have := dropWhile_append_of_all l [] h
  simpa using this

lemma get_comment_scan_block :
    ∀ pre : List Line,
      (∀ l ∈ pre, (pyStrip l).isEmpty = true ∨ startsWithHash (pyLstrip l) = true) →
      ∀ (stopLine : Line) (rest : List Line),
        (pyStrip stopLine).isEmpty = false → startsWithHash (pyLstrip stopLine) = false →
        get_comment_scan (pre ++ stopLine :: rest) = pre.filterMap commentContribution := by
  intro pre
  induction pre with
  | nil =>
    intro _ stopLine rest hblank hhash
    simp only [List.nil_append, get_comment_scan, List.filterMap_nil]
    rw [show pyRstrip (pyLstrip stopLine) = pyStrip stopLine from rfl, hblank, hhash]
    simp
  | cons l pre ih =>
    intro hpre stopLine rest hblank hhash
    have hl := hpre l (List.mem_cons_self l pre)
    have hpre' : ∀ x ∈ pre, (pyStrip x).isEmpty = true ∨ startsWithHash (pyLstrip x) = true :=
      fun x hx => hpre x (List.mem_cons_of_mem l hx)
    have ihx := ih hpre' stopLine rest hblank hhash
    by_cases hb : (pyStrip l).isEmpty = true
    · have hbR : (pyRstrip (pyLstrip l)).isEmpty = true := hb
      simp only [List.cons_append, get_comment_scan, hbR, if_true,
        List.filterMap_cons, commentContribution, hb]
      simpa using ihx
    · have hbF : (pyStrip l).isEmpty = false := by
        revert hb; cases (pyStrip l).isEmpty <;> simp
      have hbR : (pyRstrip (pyLstrip l)).isEmpty = false := hbF
      have hh : startsWithHash (pyLstrip l) = true := by
        rcases hl with h | h
        · exact absurd h hb
        · exact h
      simp only [List.cons_append, get_comment_scan, hbR, hh,
        List.filterMap_cons, commentContribution, hbF]
      simpa using ihx

lemma pyLstrip_hash (t : Line) : pyLstrip ('#' :: t) = '#' :: t := by
  simp [pyLstrip, List.dropWhile_cons, show pyIsSpace '#' = false from rfl]

lemma pyRstrip_hash_all_space (t : Line) (ht : t.all pyIsSpace = true) :
    pyRstrip ('#' :: t) = ['#'] := by
  unfold pyRstrip
  rw [show ('#' :: t).reverse = t.reverse ++ ['#'] by simp,
    dropWhile_append_of_all t.reverse ['#'] (by simpa using ht)]
  simp [List.dropWhile_cons, show pyIsSpace '#' = false from rfl]

lemma get_comment_scan_flatten_insert (t : Line) (ht : t.all pyIsSpace = true) :
    ∀ pre rest : List Line,
      (get_comment_scan (pre ++ ('#' :: t) :: rest)).flatten =
        (get_comment_scan (pre ++ rest)).flatten := by
  have hlstrip := pyLstrip_hash t
  have hrstrip := pyRstrip_hash_all_space t ht
  have hcontrib : pyLstrip (('#' :: t).drop 1) = [] := by
    simpa [pyLstrip] using dropWhile_eq_nil_of_all t ht
  intro pre
  induction pre with
  | nil =>
    intro rest
    simp only [List.nil_append, get_comment_scan, hlstrip, hrstrip, hcontrib]
    rw [if_neg (by simp), if_neg (by simp [startsWithHash])]
    simp
  | cons l pre ih =>
    intro rest
    simp only [List.cons_append, get_comment_scan]
    by_cases hb : (pyRstrip (pyLstrip l)).isEmpty = true
    · rw [if_pos hb, if_pos hb]
      exact ih rest
    · rw [if_neg hb, if_neg hb]
      by_cases hh : startsWithHash (pyLstrip l) = false
      · rw [if_pos hh, if_pos hh]
      · rw [if_neg hh, if_neg hh]
        simp only [List.flatten_cons]
        exact congrArg (fun z => pyLstrip ((pyLstrip l).drop 1) ++ z) (ih rest)

/-!
## Claim theorems
-/

/-- Claim C1: for every text `T`, every filesystem state and every writable
path `p`, `save(T, p)` followed by `load(p)` returns exactly `T` — round-trip
identity, with no trailing newline added or removed by this layer. -/
theorem save_load_roundtrip (T : String) (fs : FS) (p : String) :
    load (save T fs p) p = .ok T := by
  unfold load save openx openPathRead openPathWrite writeText readAll
  simp

/-- Claim C2, counterexample: when the connector's `open` itself fails (for
example, on a missing file), `openx` propagates the error without ever
invoking `close()` — the close count is `0`, not `1`, refuting the claim for
the exit path "failure during opening". -/
theorem openx_open_failure_no_close :
    (openx Unit ['r'] (fun _ => .error "FileNotFoundError")
        (fun fh => .ok ((), fh))).2 = 0 ∧
    (openx Unit ['r'] (fun _ => .error "FileNotFoundError")
        (fun fh => .ok ((), fh))).2 ≠ 1 := by
  constructor
  · rfl
  · decide

/-- Claim C2 (amended): once the connector's `open` has returned a handle,
`close()` is invoked exactly once on every exit path — normal completion,
error raised in the yielded scope, or validation failure — before the error
(if any) propagates; when `open` itself raises, the error propagates to the
caller without `close()` being invoked at all. -/
theorem openx_close_discipline (A : Type) (mode : Line)
    (openF : Line → Except Err Handle) (body : Handle → Except Err (A × Handle)) :
    (∀ fh, openF (forceTextMode mode) = .ok fh →
      (openx A mode openF body).2 = 1) ∧
    (∀ e, openF (forceTextMode mode) = .error e →
      openx A mode openF body = (.error e, 0)) := by
  constructor
  · intro fh hopen
    simp only [openx, hopen]
    by_cases ht : fh.isText = false
    · simp [ht]
    · rw [if_neg ht]
      cases body fh <;> rfl
  · intro e hopen
    simp only [openx, hopen]

/-- Claim C2 witness: a run in which `open` succeeds and the body completes
normally performs exactly one `close()`. -/
theorem openx_close_discipline_witness :
    (openx Unit ['r'] (fun _ => .ok ⟨"x", true⟩)
        (fun fh => .ok ((), fh))).2 = 1 :=
  (openx_close_discipline Unit ['r'] (fun _ => .ok ⟨"x", true⟩)
    (fun fh => .ok ((), fh))).1 ⟨"x", true⟩ rfl

/-- Claim C3: if the handle returned by the connector's `open` is not a
text-mode stream, `openx` closes the connector (exactly one `close()`) and
fails with the `ValueError` before yielding: the outcome is the same for
every body, so the caller never observes the non-text handle. -/
theorem openx_nontext_validation (A : Type) (mode : Line)
    (openF : Line → Except Err Handle) (fh : Handle)
    (hopen : openF (forceTextMode mode) = .ok fh) (htext : fh.isText = false)
    (body body' : Handle → Except Err (A × Handle)) :
    openx A mode openF body = (.error valueErrorMsg, 1) ∧
    openx A mode openF body = openx A mode openF body' := by
  have h : ∀ b : Handle → Except Err (A × Handle),
      openx A mode openF b = (.error valueErrorMsg, 1) := by
    intro b
    simp only [openx, hopen, if_pos htext]
  exact ⟨h body, (h body).trans (h body').symm⟩

/-- Claim C3 witness: a connector opening a binary-mode handle makes `openx`
fail with the `ValueError` after exactly one `close()`. -/
theorem openx_nontext_validation_witness :
    openx Unit ['r'] (fun _ => .ok ⟨"", false⟩) (fun fh => .ok ((), fh)) =
      (.error valueErrorMsg, 1) :=
  (openx_nontext_validation Unit ['r'] (fun _ => .ok ⟨"", false⟩) ⟨"", false⟩
    rfl rfl (fun fh => .ok ((), fh)) (fun fh => .ok ((), fh))).1

/-- Claim C4: `get_comment` skips blank lines, stops (without consuming the
triggering line) at the first non-blank line whose left-stripped form does
not start with `#`, accumulates each comment line with the leading `#` and
the immediately following whitespace stripped, and right-strips the
concatenation; in particular the spec's example file yields
`"Title\ndesc\nmore"`. -/
theorem get_comment_leading_block :
    (∀ (pre : List Line) (stopLine : Line) (rest : List Line),
      (∀ l ∈ pre, (pyStrip l).isEmpty = true ∨ startsWithHash (pyLstrip l) = true) →
      (pyStrip stopLine).isEmpty = false → startsWithHash (pyLstrip stopLine) = false →
      get_comment (pre ++ stopLine :: rest) =
        pyRstrip (pre.filterMap commentContribution).flatten) ∧
    get_comment (["# Title\n", "# desc\n", "\n", "# more\n", "data\n"].map String.toList) =
      "Title\ndesc\nmore".toList := by
  constructor
  · intro pre stopLine rest hpre hblank hhash
    unfold get_comment
    rw [get_comment_scan_block pre hpre stopLine rest hblank hhash]
  · decide

/-- Claim C4 witness: a file whose first non-blank line is not a comment has
the empty string as its header. -/
theorem get_comment_leading_block_witness :
    get_comment ["data\n".toList] = [] :=
  (get_comment_leading_block.1 [] "data\n".toList [] (by simp) (by decide)
    (by decide)).trans (by decide)

/-- Claim C5: `get_content` with the default (zero) limit returns, in file
order, exactly the lines whose fully stripped form is neither blank nor
begins with `#`, each with trailing carriage-return/line-feed characters
removed and all other whitespace preserved; in particular the spec's example
yields `["a,1", "b,2"]`. -/
theorem get_content_filter_characterization :
    (∀ file : List Line,
      get_content file 0 = (file.filter keepLine).map pyRstripCRLF) ∧
    get_content (["# h\n", "\n", "a,1\n", "# mid\n", "b,2\n"].map String.toList) 0 =
      ["a,1".toList, "b,2".toList] :=
  ⟨get_content_zero_eq_filter, by decide⟩

/-- Claim C6: with a non-zero limit `n`, `get_content` stops collecting once
`n` lines are collected, so the result has at most `n` elements; the zero
(default) limit is unbounded — it returns every kept line; with limit 1 the
spec's example yields `["a,1"]`. -/
theorem get_content_limit_bound :
    (∀ (file : List Line) (n : Nat), 0 < n → (get_content file n).length ≤ n) ∧
    (∀ file : List Line,
      (get_content file 0).length = (file.filter keepLine).length) ∧
    get_content (["# h\n", "\n", "a,1\n", "# mid\n", "b,2\n"].map String.toList) 1 =
      ["a,1".toList] := by
  refine ⟨fun file n hn => ?_, fun file => ?_, by decide⟩
  · rw [get_content_eq_take file n hn]
    exact List.length_take_le n _
  · rw [get_content_zero_eq_filter]
    simp

/-- Claim C6 witness: with limit 1 the collected content never exceeds one
line. -/
theorem get_content_limit_bound_witness :
    (get_content (["x\n".toList, "y\n".toList]) 1).length ≤ 1 :=
  get_content_limit_bound.1 ["x\n".toList, "y\n".toList] 1 (by decide)

/-- Claim C7: the mode `openx` actually passes to the connector's `open`
always contains the text-mode marker `'t'`: the marker is appended exactly
when it is absent from the supplied mode, and `openx` hands `open` the
normalised mode, so the stream is always opened in text mode. -/
theorem openx_forces_text_mode :
    (∀ mode : Line, 't' ∈ forceTextMode mode) ∧
    (∀ mode : Line, 't' ∈ mode → forceTextMode mode = mode) ∧
    (∀ mode : Line, 't' ∉ mode → forceTextMode mode = mode ++ ['t']) ∧
    (∀ (A : Type) (mode : Line) (body : Handle → Except Err (A × Handle)),
      (openx A mode (fun m => .error (String.mk m)) body).1 =
        .error (String.mk (forceTextMode mode))) := by
  refine ⟨fun mode => ?_, fun mode h => ?_, fun mode h => ?_, fun A mode body => rfl⟩
  · unfold forceTextMode
    by_cases h : 't' ∈ mode
    · simp [h]
    · simp [h]
  · simp [forceTextMode, h]
  · simp [forceTextMode, h]

/-- Claim C7 witness: the read mode `'r'` gets the marker appended, and the
result contains `'t'`. -/
theorem openx_forces_text_mode_witness :
    forceTextMode ['r'] = ['r', 't'] ∧ 't' ∈ forceTextMode ['w'] :=
  ⟨openx_forces_text_mode.2.2.1 ['r'] (by decide), openx_forces_text_mode.1 ['w']⟩

/-- Claim C8, counterexample: `close` is not among the abstract members the
`Connector` base class declares, so the capability contract does not require
a `close()` operation. -/
theorem connector_close_not_abstract :
    "close" ∉ connectorAbstractMembers := by
  simp [connectorAbstractMembers]

/-- Claim C8 (amended): the `Connector` capability contract requires exactly
`name` and `open`; `close()` is not part of the abstract contract — the
concrete connector used by `openx` provides it, but the base class does not
demand it. -/
theorem connector_contract_members :
    "name" ∈ connectorAbstractMembers ∧ "open" ∈ connectorAbstractMembers ∧
      "close" ∉ connectorAbstractMembers := by
  refine ⟨?_, ?_, ?_⟩ <;> simp [connectorAbstractMembers]

/-- Claim C9: for every file and every positive limit `n`, `get_content` with
limit `n` is exactly the `n`-element prefix (that is, the first `min n k`
elements) of the unbounded result: limiting only truncates, it never changes
which lines are selected or their order. -/
theorem get_content_limit_is_truncation (file : List Line) (n : Nat) (hn : 0 < n) :
    get_content file n = (get_content file 0).take n :=
  get_content_eq_take file n hn

/-- Claim C9 witness: the spec's example with limit 1 is the 1-prefix of the
unbounded result. -/
theorem get_content_limit_is_truncation_witness :
    get_content (["# h\n", "\n", "a,1\n", "# mid\n", "b,2\n"].map String.toList) 1 =
      (get_content (["# h\n", "\n", "a,1\n", "# mid\n", "b,2\n"].map String.toList) 0).take 1 :=
  get_content_limit_is_truncation
    (["# h\n", "\n", "a,1\n", "# mid\n", "b,2\n"].map String.toList) 1 (by decide)

/-- Claim C10: a leading-comment line consisting of `#` followed only by
whitespace contributes the empty string to `get_comment`'s accumulator — its
line terminator is stripped along with the whitespace — so such a line adds
no blank line and no newline separator: deleting it from the leading block
leaves `get_comment`'s result unchanged. -/
theorem get_comment_hash_only_line (t : Line) (pre rest : List Line)
    (ht : t.all pyIsSpace = true) :
    commentContribution ('#' :: t) = some [] ∧
    get_comment (pre ++ ('#' :: t) :: rest) = get_comment (pre ++ rest) := by
  constructor
  · unfold commentContribution
    rw [show pyStrip ('#' :: t) = ['#'] from by
      unfold pyStrip
      rw [pyLstrip_hash, pyRstrip_hash_all_space t ht]]
    rw [if_neg (by simp), pyLstrip_hash]
    simp only [List.drop_succ_cons, List.drop_zero]
    rw [show pyLstrip t = [] from dropWhile_eq_nil_of_all t ht]
  · unfold get_comment
    exact congrArg pyRstrip (get_comment_scan_flatten_insert t ht pre rest)

/-- Claim C10 witness: the line `"#   \n"` between two comment lines changes
nothing — the header is still `"a\nb"`. -/
theorem get_comment_hash_only_line_witness :
    commentContribution ('#' :: "   \n".toList) = some [] ∧
    get_comment (["# a\n".toList] ++ ('#' :: "   \n".toList) :: ["# b\n".toList]) =
      get_comment (["# a\n".toList] ++ ["# b\n".toList]) :=
  get_comment_hash_only_line "   \n".toList ["# a\n".toList] ["# b\n".toList] (by decide)

end Flib
